import Mathlib

/-!
Shallow embedding of the machine lifecycle provider
(machine-controller-manager-provider-ironcore-metal).

The Go sources are translated into executable Lean definitions:
  * pure helpers (name derivation, validation) become pure functions;
  * the declarative resource store becomes an explicit `Store` value;
  * every driver operation is a function from (config, request, store) to
    (result, new store, list of store operations performed), so ordering
    claims can be stated over the returned operation log;
  * Kubernetes server-side apply and merge patches are modelled as pure
    store updates that preserve fields owned by other field managers
    (annotations, `ServerRef`, `IgnitionSecretRef` are never part of the
    driver's apply configuration in the canonical revision).

Sources embedded: pkg/metal/create_machine.go, get_machine_status.go,
initialize_machine.go, delete_machine.go, list_machines.go, driver.go,
pkg/api/validation/validation.go, pkg/api/v1alpha1/provider.go and the
shared driver helpers (getNodeName, getIPAddressClaimName,
GetProviderSpec, getIgnitionNameForMachine).
-/

/-- Key of a namespaced object in the store: (namespace, name). -/
abbrev NsKey := String × String

/-- Lookup in an association list keyed by (namespace, name). -/
def mfind {α : Type} (m : List (NsKey × α)) (k : NsKey) : Option α :=
  (m.find? (fun p => p.1.1 == k.1 && p.1.2 == k.2)).map (·.2)

/-- Insert or replace an entry keyed by (namespace, name). -/
def mput {α : Type} (m : List (NsKey × α)) (k : NsKey) (v : α) : List (NsKey × α) :=
  (k, v) :: m.filter (fun p => !(p.1.1 == k.1 && p.1.2 == k.2))

/-- Delete an entry keyed by (namespace, name). -/
def mdel {α : Type} (m : List (NsKey × α)) (k : NsKey) : List (NsKey × α) :=
  m.filter (fun p => !(p.1.1 == k.1 && p.1.2 == k.2))

/-- Lookup in an association list keyed by a plain name (cluster-scoped objects). -/
def sfind {α : Type} (m : List (String × α)) (k : String) : Option α :=
  (m.find? (fun p => p.1 == k)).map (·.2)

/-- A Go `map[string]string` (labels, annotations) as an association list. -/
abbrev Labels := List (String × String)

/-- Go map read returning an optional value. -/
def labelGet (l : Labels) (k : String) : Option String :=
  (l.find? (fun p => p.1 == k)).map (·.2)

/-- Go map write. -/
def labelPut (l : Labels) (k v : String) : Labels :=
  (k, v) :: l.filter (fun p => p.1 != k)

/-- Go `delete(m, k)`. -/
def labelDel (l : Labels) (k : String) : Labels :=
  l.filter (fun p => p.1 != k)

/-- Go comma-ok map read on a possibly-nil map: `v, ok := m[k]`.
A nil map (`none`) yields the zero value and `false`. -/
def labelGetOk (l : Option Labels) (k : String) : String × Bool :=
  match l with
  | none => ("", false)
  | some l =>
    match labelGet l k with
    | none => ("", false)
    | some v => (v, true)

/-- Go indexing into a `map[string][]byte` where values may be nil slices:
a missing key and a nil value both read as nil (`none`);
`some s` is a non-nil byte slice with contents `s`. -/
def goDataIndex (d : List (String × Option String)) (k : String) : Option String :=
  match (d.find? (fun p => p.1 == k)).map (·.2) with
  | none => none
  | some v => v

/-- metadata.OwnerReference as used by the driver (UID is never inspected
by the embedded code paths, so it is omitted). -/
structure OwnerReference where
  apiVersion : String
  kind : String
  name : String
deriving DecidableEq, Repr

/-- metalv1alpha1.ServerClaimSpec restricted to the fields the driver touches.
`power` is the string-typed Power field ("On" / "Off"). -/
structure ServerClaimSpec where
  power : String
  serverSelector : Labels
  image : String
  serverRef : Option String
  ignitionSecretRef : Option String
deriving DecidableEq, Repr

/-- metalv1alpha1.ServerClaim. `ns` is the object namespace. -/
structure ServerClaim where
  name : String
  ns : String
  labels : Labels
  annotations : Labels
  spec : ServerClaimSpec
deriving DecidableEq, Repr

/-- metalv1alpha1.Server (cluster-scoped): only the BMC reference and
annotations are read by the driver. -/
structure Server where
  name : String
  annotations : Labels
  bmcRef : Option String
deriving DecidableEq, Repr

/-- capiv1beta1.IPAddressClaim. `labels = none` models a nil Go map;
`addressRefName = ""` models an unbound claim (empty Status.AddressRef.Name). -/
structure IPAddressClaim where
  name : String
  ns : String
  labels : Option Labels
  ownerReferences : List OwnerReference
  poolRefAPIGroup : Option String
  poolRefKind : String
  poolRefName : String
  addressRefName : String
deriving DecidableEq, Repr

/-- capiv1beta1.IPAddress: the bound output of an IPAddressClaim. -/
structure IPAddress where
  name : String
  ns : String
  address : String
  prefixLen : Int
  gateway : String
deriving DecidableEq, Repr

/-- corev1.Secret restricted to name, namespace and data.
Data values are `Option String`: `none` models a nil byte slice. -/
structure Secret where
  name : String
  ns : String
  data : List (String × Option String)
deriving DecidableEq, Repr

/-- v1alpha1.IPAMObjectReference. -/
structure IPAMObjectReference where
  name : String
  apiGroup : String
  kind : String
deriving DecidableEq, Repr

/-- v1alpha1.IPAMConfig: a metadata key plus an optional pool reference. -/
structure IPAMConfig where
  metadataKey : String
  ipamRef : Option IPAMObjectReference
deriving DecidableEq, Repr

/-- A value of the free-form metadata map passed to the ignition builder. -/
inductive MetaValue where
  | str (v : String)
  | ipInfo (ip : String) (prefixLen : Int) (gateway : String)
deriving DecidableEq, Repr

/-- v1alpha1.ProviderSpec. `dnsServers` entries are `Option String`:
`none` models the invalid zero netip.Addr, `some a` a valid address. -/
structure ProviderSpec where
  image : String
  ignition : String
  ignitionOverride : Bool
  ignitionSecretKey : String
  labels : Labels
  dnsServers : List (Option String)
  serverLabels : Labels
  metadata : List (String × MetaValue)
  ipamConfig : List IPAMConfig
deriving DecidableEq, Repr

/-- The machine object of a request: only the name is used by the driver. -/
structure Machine where
  name : String
deriving DecidableEq, Repr

/-- machinev1alpha1.MachineClass: provider tag plus the provider-spec bytes.
`providerSpec = none` models raw bytes that fail to JSON-unmarshal. -/
structure MachineClass where
  provider : String
  providerSpec : Option ProviderSpec
deriving DecidableEq, Repr

/-- The common shape of the five request types (Machine, MachineClass, Secret).
The Go request structs are distinct types with these same fields. -/
structure MachineRequest where
  machine : Option Machine
  machineClass : Option MachineClass
  secret : Option Secret
deriving DecidableEq, Repr

/-- machinecodes status codes used by the driver. -/
inductive Code where
  | invalidArgument
  | internal
  | unavailable
  | uninitialized
  | notFound
  | unknown
  | deadlineExceeded
  | unimplemented
deriving DecidableEq, Repr

/-- cmd.NodeNamePolicy. -/
inductive NodeNamePolicy where
  | serverClaimName
  | serverName
  | bmcName
deriving DecidableEq, Repr

/-- The driver configuration: target namespace and node-name policy. -/
structure DriverConfig where
  metalNamespace : String
  nodeNamePolicy : NodeNamePolicy
deriving DecidableEq, Repr

/-- v1alpha1.ProviderName. -/
def ProviderName : String := "ironcore-metal"

/-- validation.LabelKeyServerClaimName. -/
def LabelKeyServerClaimName : String := "metal.ironcore.dev/server-claim-name"

/-- validation.LabelKeyServerClaimNamespace. -/
def LabelKeyServerClaimNamespace : String := "metal.ironcore.dev/server-claim-namespace"

/-- validation.AnnotationKeyMCMMachineRecreate. -/
def AnnotationKeyMCMMachineRecreate : String := "metal.ironcore.dev/mcm-machine-recreate"

/-- metalv1alpha1.GroupVersion.String(). -/
def metalAPIVersion : String := "metal.ironcore.dev/v1alpha1"

/-- metalv1alpha1.PowerOn. -/
def PowerOn : String := "On"

/-- metalv1alpha1.PowerOff. -/
def PowerOff : String := "Off"

/-- utilvalidation.DNS1123SubdomainMaxLength. -/
def DNS1123SubdomainMaxLength : Nat := 253

/-- Modelled from the spec: `v1alpha1.LoopbackAddressAnnotation` is declared in a
revision of the provider-spec package not included under src/; the constant's
exact value is not load-bearing for any claim. -/
def LoopbackAddressAnnotationKey : String := "metal.ironcore.dev/loopbackAddress"

/-- A field-path-annotated validation error (k8s field.Error). -/
structure FieldError where
  path : String
  message : String
deriving DecidableEq, Repr

/-- validation.validateSecret: requires the secret and a non-nil `userData` entry. -/
def validateSecret (secret : Option Secret) : List FieldError :=
  match secret with
  | none => [{ path := "spec.secretRef", message := "secretRef is required" }]
  | some s =>
    if goDataIndex s.data "userData" = none then
      [{ path := "userData", message := "userData is required" }]
    else []

/-- Index-tracking helper for the dnsServers loop of validateMachineClassSpec. -/
def dnsServerErrorsFrom (i : Nat) : List (Option String) → List FieldError
  | [] => []
  | ip :: rest =>
    (if ip.isNone then
      [{ path := "spec.dnsServers[" ++ toString i ++ "]", message := "ip is invalid" }]
     else []) ++ dnsServerErrorsFrom (i + 1) rest

/-- validation.validateMachineClassSpec: image required, dns servers valid. -/
def validateMachineClassSpec (spec : ProviderSpec) : List FieldError :=
  (if spec.image = "" then [{ path := "spec.image", message := "image is required" }] else [])
  ++ dnsServerErrorsFrom 0 spec.dnsServers

/-- validation.ValidateProviderSpecAndSecret. -/
def ValidateProviderSpecAndSecret (spec : ProviderSpec) (secret : Option Secret) :
    List FieldError :=
  validateMachineClassSpec spec ++ validateSecret secret

/-- GetProviderSpec: unmarshal the provider spec and run the validator;
`none` is any error (missing class, unmarshal failure, validation errors). -/
def GetProviderSpec (mclass : Option MachineClass) (secret : Option Secret) :
    Option ProviderSpec :=
  match mclass with
  | none => none
  | some c =>
    match c.providerSpec with
    | none => none
    | some spec =>
      if ValidateProviderSpecAndSecret spec secret = [] then some spec else none

/-- validation.ValidateIPAddressClaim (canonical four-argument revision):
labels present and matching, and every owner reference pointing at the
expected ServerClaim. -/
def ValidateIPAddressClaim (ipClaim : IPAddressClaim) (serverClaim : ServerClaim)
    (serverClaimName serverClaimNamespace : String) : List FieldError :=
  let labelsNilErrs : List FieldError :=
    if ipClaim.labels.isNone then
      [{ path := "metadata.labels", message := "IPAddressClaim labels are required" }]
    else []
  let nameRead := labelGetOk ipClaim.labels LabelKeyServerClaimName
  let nameErrs : List FieldError :=
    (if nameRead.2 then []
     else [{ path := "metadata.labels[" ++ LabelKeyServerClaimName ++ "]",
             message := "IPAddressClaim has no server claim label for name" }])
    ++ (if nameRead.1 != serverClaimName then
          [{ path := "metadata.labels",
             message := "IPAddressClaim label for name does not match expected value" }]
        else [])
  let nsRead := labelGetOk ipClaim.labels LabelKeyServerClaimNamespace
  let nsErrs : List FieldError :=
    (if nsRead.2 then []
     else [{ path := "metadata.labels[" ++ LabelKeyServerClaimNamespace ++ "]",
             message := "IPAddressClaim has no server claim label for namespace" }])
    ++ (if nsRead.1 != serverClaimNamespace then
          [{ path := "metadata.labels",
             message := "IPAddressClaim label for namespace does not match expected value" }]
        else [])
  let ownerErrs : List FieldError :=
    if ipClaim.ownerReferences = [] then
      [{ path := "metadata.ownerReferences",
         message := "IPAddressClaim must have an owner reference" }]
    else
      ipClaim.ownerReferences.filterMap (fun o =>
        if o.kind != "ServerClaim" || o.name != serverClaim.name
            || o.apiVersion != metalAPIVersion then
          some { path := "metadata.ownerReferences",
                 message := "IPAddressClaim owner reference does not match expected ServerClaim" }
        else none)
  labelsNilErrs ++ nameErrs ++ nsErrs ++ ownerErrs

/-- Modelled from the spec: the three-argument revision of
`ValidateIPAddressClaim` invoked by InitializeMachine is not under src/
(only its caller and its unit tests are); reconstructed from those tests:
labels present and matching the expected machine/namespace, and a
non-empty Status.AddressRef.Name. Argument order is (claim, metal
namespace, machine name). -/
def validateIPAddressClaimForInit (ipClaim : IPAddressClaim)
    (metalNamespace machineName : String) : List FieldError :=
  let labelsNilErrs : List FieldError :=
    if ipClaim.labels.isNone then
      [{ path := "metadata.labels", message := "IP address claim labels are required" }]
    else []
  let nameRead := labelGetOk ipClaim.labels LabelKeyServerClaimName
  let nsRead := labelGetOk ipClaim.labels LabelKeyServerClaimNamespace
  let missingErrs : List FieldError :=
    (if nameRead.2 then []
     else [{ path := "metadata.labels[" ++ LabelKeyServerClaimName ++ "]",
             message := "IP address claim has no server claim label for name" }])
    ++ (if nsRead.2 then []
        else [{ path := "metadata.labels[" ++ LabelKeyServerClaimNamespace ++ "]",
                message := "IP address claim has no server claim label for namespace" }])
  let mismatchErrs : List FieldError :=
    if nameRead.1 != machineName || nsRead.1 != metalNamespace then
      [{ path := "metadata.labels",
         message := "IP address claim labels do not match expected values" }]
    else []
  let addressErrs : List FieldError :=
    if ipClaim.addressRefName = "" then
      [{ path := "status.addressRef.name", message := "IP address reference is required" }]
    else []
  labelsNilErrs ++ missingErrs ++ mismatchErrs ++ addressErrs

/-- The external resource store: namespaced maps for secrets, server
claims, ip claims and ip addresses, and cluster-scoped servers. -/
structure Store where
  secrets : List (NsKey × Secret)
  serverClaims : List (NsKey × ServerClaim)
  ipClaims : List (NsKey × IPAddressClaim)
  ipAddresses : List (NsKey × IPAddress)
  servers : List (String × Server)
deriving DecidableEq, Repr

/-- One store access performed by a driver operation, in program order. -/
inductive StoreOp where
  | getSecretOp (k : NsKey)
  | getServerClaimOp (k : NsKey)
  | getIPClaimOp (k : NsKey)
  | getIPAddressOp (k : NsKey)
  | getServerOp (name : String)
  | listServerClaimsOp (ns : String)
  | applyServerClaimOp (c : ServerClaim)
  | applyIPClaimOp (c : IPAddressClaim)
  | applySecretOp (s : Secret)
  | patchServerClaimOp (c : ServerClaim)
  | patchIPClaimOp (c : IPAddressClaim)
  | deleteSecretOp (k : NsKey)
  | deleteServerClaimOp (k : NsKey)
deriving DecidableEq, Repr

/-- Whether an operation is the server-side apply of a ServerClaim. -/
def StoreOp.isApplyServerClaim : StoreOp → Bool
  | .applyServerClaimOp _ => true
  | _ => false

/-- Whether an operation is the server-side apply (upsert) of an IPAddressClaim. -/
def StoreOp.isApplyIPClaim : StoreOp → Bool
  | .applyIPClaimOp _ => true
  | _ => false

/-- getIPAddressClaimName: `<machine>-<metadataKey>`, truncated to the
DNS-1123 subdomain limit. -/
def getIPAddressClaimName (machineName metadataKey : String) : String :=
  let n := machineName ++ "-" ++ metadataKey
  if n.length > DNS1123SubdomainMaxLength then (n.toList.take DNS1123SubdomainMaxLength).asString
  else n

/-- getProviderIDForServerClaim: `ironcore-metal://<namespace>/<name>`. -/
def getProviderIDForServerClaim (c : ServerClaim) : String :=
  ProviderName ++ "://" ++ c.ns ++ "/" ++ c.name

/-- The legacy ignition secret name `<machine>-ignition`. -/
def ignitionSecretNameFor (machineName : String) : String :=
  machineName ++ "-ignition"

/-- getIgnitionNameForMachine: probe the store for the legacy name
`<machine>-ignition`; if it is absent the derived name is the machine
name, otherwise the legacy name. -/
def getIgnitionNameForMachine (cfg : DriverConfig) (store : Store)
    (machineName : String) : String :=
  if (mfind store.secrets (cfg.metalNamespace, ignitionSecretNameFor machineName)).isNone
  then machineName
  else ignitionSecretNameFor machineName

/-- getNodeName: resolve the node name from the policy; `none` is the Go
error return. Resolving `bmcName` reads the Server from the store. -/
def getNodeName (cfg : DriverConfig) (serverClaim : ServerClaim) (store : Store) :
    Option String × List StoreOp :=
  match cfg.nodeNamePolicy with
  | .serverClaimName => (some serverClaim.name, [])
  | .serverName =>
    match serverClaim.spec.serverRef with
    | none => (none, [])
    | some n => (some n, [])
  | .bmcName =>
    match serverClaim.spec.serverRef with
    | none => (none, [])
    | some n =>
      match sfind store.servers n with
      | none => (none, [.getServerOp n])
      | some srv =>
        match srv.bmcRef with
        | none => (none, [.getServerOp n])
        | some b => (some b, [.getServerOp n])

/-- Server-side apply of a ServerClaim with force ownership, field owner
`mcm.ironcore.dev/field-owner`. The driver's apply configuration carries
name, namespace, labels, power, selector and image; annotations and the
`ServerRef` / `IgnitionSecretRef` fields are owned by other managers and
are preserved. Returns the new store and the merged object written back
into the caller's variable; `serverClaimApplyMerge` is the merge of the
apply configuration over the existing object. -/
def serverClaimApplyMerge (old? : Option ServerClaim) (c : ServerClaim) : ServerClaim :=
  match old? with
  | none => c
  | some old =>
    { c with
      annotations := old.annotations
      spec := { c.spec with
                serverRef := old.spec.serverRef
                ignitionSecretRef := old.spec.ignitionSecretRef } }

def applyServerClaim (store : Store) (c : ServerClaim) : Store × ServerClaim :=
  let merged := serverClaimApplyMerge (mfind store.serverClaims (c.ns, c.name)) c
  ({ store with serverClaims := mput store.serverClaims (c.ns, c.name) merged }, merged)

/-- Server-side apply of an IPAddressClaim: labels and pool reference come
from the apply configuration, the status (AddressRef) is preserved, and
owner references of other managers are kept alongside the applied one. -/
def applyIPClaim (store : Store) (c : IPAddressClaim) : Store × IPAddressClaim :=
  match mfind store.ipClaims (c.ns, c.name) with
  | none =>
    ({ store with ipClaims := mput store.ipClaims (c.ns, c.name) c }, c)
  | some old =>
    let merged : IPAddressClaim :=
      { c with
        addressRefName := old.addressRefName
        ownerReferences :=
          old.ownerReferences
            ++ c.ownerReferences.filter (fun o => decide (o ∉ old.ownerReferences)) }
    ({ store with ipClaims := mput store.ipClaims (c.ns, c.name) merged }, merged)

/-- Merge patch writing a ServerClaim object as mutated in memory. -/
def patchServerClaimStore (store : Store) (c : ServerClaim) : Store :=
  { store with serverClaims := mput store.serverClaims (c.ns, c.name) c }

/-- Server-side apply of a Secret (whole data map from the apply configuration). -/
def applySecretStore (store : Store) (s : Secret) : Store :=
  { store with secrets := mput store.secrets (s.ns, s.name) s }

/-- isEmptyCreateRequest (the same shape is used by the initialize, status
and delete gates). -/
def isEmptyCreateRequest (req : Option MachineRequest) : Bool :=
  match req with
  | none => true
  | some r => r.machineClass.isNone || r.machine.isNone || r.secret.isNone

/-- isEmptyInitializeRequest. -/
def isEmptyInitializeRequest (req : Option MachineRequest) : Bool :=
  isEmptyCreateRequest req

/-- isEmptyMachineStatusRequest. -/
def isEmptyMachineStatusRequest (req : Option MachineRequest) : Bool :=
  isEmptyCreateRequest req

/-- isEmptyDeleteRequest. -/
def isEmptyDeleteRequest (req : Option MachineRequest) : Bool :=
  isEmptyCreateRequest req

/-- isEmptyListMachinesRequest: the list gate does not require a machine. -/
def isEmptyListMachinesRequest (req : Option MachineRequest) : Bool :=
  match req with
  | none => true
  | some r => r.machineClass.isNone || r.secret.isNone

/-- The provider tag named by a request, "" when no machine class is present. -/
def requestProvider (req : Option MachineRequest) : String :=
  match req with
  | none => ""
  | some r =>
    match r.machineClass with
    | none => ""
    | some mc => mc.provider

/-- The (providerID, nodeName) payload shared by the create, initialize
and status responses. -/
structure MachineResponse where
  providerID : String
  nodeName : String
deriving DecidableEq, Repr

/-- The ServerClaim object built by createServerClaim from the provider
spec: power off, selector from serverLabels, image, labels. -/
def newServerClaim (cfg : DriverConfig) (machineName : String) (spec : ProviderSpec) :
    ServerClaim :=
  { name := machineName
    ns := cfg.metalNamespace
    labels := spec.labels
    annotations := []
    spec := { power := PowerOff
              serverSelector := spec.serverLabels
              image := spec.image
              serverRef := none
              ignitionSecretRef := none } }

/-- createServerClaim: server-side apply the built claim; returns the
merged object, the new store and the log. -/
def createServerClaim (cfg : DriverConfig) (machineName : String)
    (spec : ProviderSpec) (store : Store) : ServerClaim × Store × List StoreOp :=
  let claim := newServerClaim cfg machineName spec
  let res := applyServerClaim store claim
  (res.2, res.1, [.applyServerClaimOp claim])

/-- createIPAddressClaims: for each IPAM entry require a pool reference
(else Internal), build the labelled claim owner-referenced to the
ServerClaim, and server-side apply it. -/
def createIPAddressClaims (cfg : DriverConfig) (machineName : String)
    (serverClaim : ServerClaim) : List IPAMConfig → Store →
    Except Code Unit × Store × List StoreOp
  | [], store => (.ok (), store, [])
  | e :: rest, store =>
    match e.ipamRef with
    | none => (.error .internal, store, [])
    | some ref =>
      let ipClaim : IPAddressClaim :=
        { name := getIPAddressClaimName machineName e.metadataKey
          ns := cfg.metalNamespace
          labels := some [(LabelKeyServerClaimName, machineName),
                          (LabelKeyServerClaimNamespace, cfg.metalNamespace)]
          ownerReferences := [{ apiVersion := metalAPIVersion
                                kind := "ServerClaim"
                                name := serverClaim.name }]
          poolRefAPIGroup := some ref.apiGroup
          poolRefKind := ref.kind
          poolRefName := ref.name
          addressRefName := "" }
      let applied := applyIPClaim store ipClaim
      let next := createIPAddressClaims cfg machineName serverClaim rest applied.1
      (next.1, next.2.1, .applyIPClaimOp ipClaim :: next.2.2)

/-- ServerIsBound: re-fetch the ServerClaim and report whether its
ServerRef is set; `none` is the Go error return (claim not readable). -/
def ServerIsBound (cfg : DriverConfig) (store : Store) (machineName : String) :
    Option (ServerClaim × Bool) × List StoreOp :=
  let k : NsKey := (cfg.metalNamespace, machineName)
  match mfind store.serverClaims k with
  | none => (none, [.getServerClaimOp k])
  | some sc => (some (sc, sc.spec.serverRef.isSome), [.getServerClaimOp k])

/-- patchServerClaimWithRecreate: merge-patch the ServerClaim adding the
recreate annotation with value "true", or deleting it. Embeds the Go
function patching the claim with the mcm-machine-recreate marker. -/
def patchServerClaimWithRecreate (store : Store) (serverClaim : ServerClaim)
    (addMarker : Bool) : ServerClaim × Store × List StoreOp :=
  let patched : ServerClaim :=
    if addMarker then
      { serverClaim with
        annotations := labelPut serverClaim.annotations AnnotationKeyMCMMachineRecreate "true" }
    else
      { serverClaim with
        annotations := labelDel serverClaim.annotations AnnotationKeyMCMMachineRecreate }
  (patched, patchServerClaimStore store patched, [.patchServerClaimOp patched])

/-- The common tail of CreateMachine: resolve the node name and assemble
the response (the Go code inlines this twice, for the bound-policy path
and the default-policy path). -/
def createMachineFinish (cfg : DriverConfig) (claim : ServerClaim) (store : Store)
    (log : List StoreOp) : Except Code MachineResponse × Store × List StoreOp :=
  let nRes := getNodeName cfg claim store
  match nRes.1 with
  | none => (.error .internal, store, log ++ nRes.2)
  | some nn =>
    (.ok { providerID := getProviderIDForServerClaim claim, nodeName := nn },
     store, log ++ nRes.2)

/-- The coordination phase of CreateMachine after gates and decode:
ServerClaim apply, IP-claim upserts, then the binding observation and
recreate-annotation management under non-default policies. -/
def createMachineCore (cfg : DriverConfig) (machineName : String) (spec : ProviderSpec)
    (store : Store) : Except Code MachineResponse × Store × List StoreOp :=
  let scRes := createServerClaim cfg machineName spec store
  let claim1 := scRes.1
  let store1 := scRes.2.1
  let log1 := scRes.2.2
  match createIPAddressClaims cfg machineName claim1 spec.ipamConfig store1 with
  | (.error c, store2, log2) => (.error c, store2, log1 ++ log2)
  | (.ok _, store2, log2) =>
    if cfg.nodeNamePolicy != .serverClaimName then
      match ServerIsBound cfg store2 machineName with
      | (none, log3) => (.error .internal, store2, log1 ++ log2 ++ log3)
      | (some (sc, bound), log3) =>
        if bound then
          let pRes := patchServerClaimWithRecreate store2 sc false
          createMachineFinish cfg pRes.1 pRes.2.1 (log1 ++ log2 ++ log3 ++ pRes.2.2)
        else
          let pRes := patchServerClaimWithRecreate store2 sc true
          (.error .unavailable, pRes.2.1, log1 ++ log2 ++ log3 ++ pRes.2.2)
    else
      createMachineFinish cfg claim1 store2 (log1 ++ log2)

/-- CreateMachine (canonical deferred-power-on revision): gates and decode,
then the coordination phase of `createMachineCore`. -/
def CreateMachine (cfg : DriverConfig) (req : Option MachineRequest) (store : Store) :
    Except Code MachineResponse × Store × List StoreOp :=
  match req with
  | none => (.error .invalidArgument, store, [])
  | some r =>
    match r.machine, r.machineClass, r.secret with
    | some m, some mc, some sec =>
      if mc.provider != ProviderName then (.error .invalidArgument, store, [])
      else
        match GetProviderSpec (some mc) (some sec) with
        | none => (.error .internal, store, [])
        | some spec => createMachineCore cfg m.name spec store
    | _, _, _ => (.error .invalidArgument, store, [])

/-- validateIPAddressClaims (GetMachineStatus): fetch each IPAM entry's
claim and check pool ref presence, structural validation against the
ServerClaim, and a non-empty AddressRef. `false` is any failure. -/
def validateIPAddressClaims (cfg : DriverConfig) (machineName : String)
    (serverClaim : ServerClaim) : List IPAMConfig → Store → Bool × List StoreOp
  | [], _ => (true, [])
  | e :: rest, store =>
    match e.ipamRef with
    | none => (false, [])
    | some _ =>
      let k : NsKey := (cfg.metalNamespace, getIPAddressClaimName machineName e.metadataKey)
      match mfind store.ipClaims k with
      | none => (false, [.getIPClaimOp k])
      | some ipc =>
        if ValidateIPAddressClaim ipc serverClaim machineName cfg.metalNamespace ≠ [] then
          (false, [.getIPClaimOp k])
        else if ipc.addressRefName = "" then
          (false, [.getIPClaimOp k])
        else
          let next := validateIPAddressClaims cfg machineName serverClaim rest store
          (next.1, .getIPClaimOp k :: next.2)

/-- GetMachineStatus: gates, decode, ServerClaim fetch (absent → NotFound),
recreate-annotation check (→ NotFound), IP-claim validation (failure →
NotFound in this revision), power check (→ Uninitialized), node name. -/
def GetMachineStatus (cfg : DriverConfig) (req : Option MachineRequest) (store : Store) :
    Except Code MachineResponse × Store × List StoreOp :=
  match req with
  | none => (.error .invalidArgument, store, [])
  | some r =>
    match r.machine, r.machineClass, r.secret with
    | some m, some mc, some sec =>
      if mc.provider != ProviderName then (.error .invalidArgument, store, [])
      else
        match GetProviderSpec (some mc) (some sec) with
        | none => (.error .internal, store, [])
        | some spec =>
          let k : NsKey := (cfg.metalNamespace, m.name)
          match mfind store.serverClaims k with
          | none => (.error .notFound, store, [.getServerClaimOp k])
          | some sc =>
            if labelGet sc.annotations AnnotationKeyMCMMachineRecreate = some "true" then
              (.error .notFound, store, [.getServerClaimOp k])
            else
              let v := validateIPAddressClaims cfg m.name sc spec.ipamConfig store
              if v.1 = false then
                (.error .notFound, store, .getServerClaimOp k :: v.2)
              else if sc.spec.power != PowerOn then
                (.error .uninitialized, store, .getServerClaimOp k :: v.2)
              else
                let nRes := getNodeName cfg sc store
                match nRes.1 with
                | none => (.error .internal, store, .getServerClaimOp k :: v.2 ++ nRes.2)
                | some nn =>
                  (.ok { providerID := getProviderIDForServerClaim sc, nodeName := nn },
                   store, .getServerClaimOp k :: v.2 ++ nRes.2)
    | _, _, _ => (.error .invalidArgument, store, [])

/-- getServerClaim (InitializeMachine): fetch the machine's ServerClaim;
`.error true` is the "still not bound" outcome (ServerRef nil), `.error
false` any other fetch failure. -/
def getServerClaim (cfg : DriverConfig) (machineName : String) (store : Store) :
    Except Bool ServerClaim × List StoreOp :=
  let k : NsKey := (cfg.metalNamespace, machineName)
  match mfind store.serverClaims k with
  | none => (.error false, [.getServerClaimOp k])
  | some sc =>
    if sc.spec.serverRef.isNone then (.error true, [.getServerClaimOp k])
    else (.ok sc, [.getServerClaimOp k])

/-- getIPAddressClaimsMetadata (InitializeMachine): fetch each claim, run
the structural validation, fetch the bound IPAddress, and collect
`metadataKey -> (ip, prefix, gateway)`. `.error true` is a validation
failure (claim not ready), `.error false` a store fetch failure. -/
def getIPAddressClaimsMetadata (cfg : DriverConfig) (machineName : String) :
    List IPAMConfig → Store →
    Except Bool (List (String × MetaValue)) × List StoreOp
  | [], _ => (.ok [], [])
  | e :: rest, store =>
    let k : NsKey := (cfg.metalNamespace, getIPAddressClaimName machineName e.metadataKey)
    match mfind store.ipClaims k with
    | none => (.error false, [.getIPClaimOp k])
    | some ipc =>
      if validateIPAddressClaimForInit ipc cfg.metalNamespace machineName ≠ [] then
        (.error true, [.getIPClaimOp k])
      else
        let ak : NsKey := (ipc.ns, ipc.addressRefName)
        match mfind store.ipAddresses ak with
        | none => (.error false, [.getIPClaimOp k, .getIPAddressOp ak])
        | some addr =>
          let next := getIPAddressClaimsMetadata cfg machineName rest store
          match next.1 with
          | .error b => (.error b, .getIPClaimOp k :: .getIPAddressOp ak :: next.2)
          | .ok ms =>
            (.ok ((e.metadataKey, .ipInfo addr.address addr.prefixLen addr.gateway) :: ms),
             .getIPClaimOp k :: .getIPAddressOp ak :: next.2)

/-- Modelled from the spec: `net.ParseIP` of the Go standard library is
outside the repository; modelled as accepting any non-empty string. No
claim depends on which strings parse. -/
def parseIP (s : String) : Option String :=
  if s = "" then none else some s

/-- extractServerMetadataFromClaim: require a ServerRef, fetch the bound
Server, and read its loopback-address annotation when parseable. -/
def extractServerMetadataFromClaim (cfg : DriverConfig) (claim : ServerClaim)
    (store : Store) : Except Unit (Option String) × List StoreOp :=
  match claim.spec.serverRef with
  | none => (.error (), [])
  | some srvName =>
    match sfind store.servers srvName with
    | none => (.error (), [.getServerOp srvName])
    | some srv =>
      match labelGet srv.annotations LoopbackAddressAnnotationKey with
      | none => (.ok none, [.getServerOp srvName])
      | some s => (.ok (parseIP s), [.getServerOp srvName])

/-- mergo.Merge with override on string-keyed metadata maps: keys of the
source replace keys of the destination. -/
def mergeMeta (dst src : List (String × MetaValue)) : List (String × MetaValue) :=
  src.foldl (fun acc p => (p.1, p.2) :: acc.filter (fun q => q.1 != p.1)) dst

/-- Modelled from the spec: the ignition builder (pkg/ignition is not under
src/) is a pure deterministic function of hostname, user data, merged
metadata, raw ignition, DNS list and override flag; the template itself is
out of scope. Modelled as a concrete deterministic encoding of the inputs. -/
def ignitionRender (hostname userData rawIgnition : String)
    (metadata : List (String × MetaValue)) (dnsServers : List (Option String))
    (override : Bool) : String :=
  hostname ++ ";" ++ userData ++ ";" ++ rawIgnition ++ ";"
    ++ toString metadata.length ++ ";" ++ toString dnsServers.length ++ ";"
    ++ (if override then "o" else "t")

/-- generateIgnitionSecret: require userData, merge server metadata and
address metadata into the spec metadata (later sources winning), render
the ignition document and wrap it in a secret under the derived name.
The name derivation probes the store (one read). -/
def generateIgnitionSecret (cfg : DriverConfig) (store : Store)
    (machineName hostname : String) (reqSecret : Secret) (spec : ProviderSpec)
    (addressesMeta : List (String × MetaValue)) (serverMeta : Option String) :
    Except Unit Secret × List StoreOp :=
  let probeOps : List StoreOp :=
    [.getSecretOp (cfg.metalNamespace, ignitionSecretNameFor machineName)]
  match goDataIndex reqSecret.data "userData" with
  | none => (.error (), [])
  | some userData =>
    let withServer :=
      match serverMeta with
      | none => spec.metadata
      | some addr => mergeMeta spec.metadata [("loopbackAddress", .str addr)]
    let merged := mergeMeta withServer addressesMeta
    let name := getIgnitionNameForMachine cfg store machineName
    (.ok { name := name
           ns := cfg.metalNamespace
           data := [("ignition",
             some (ignitionRender hostname userData spec.ignition merged
                     spec.dnsServers spec.ignitionOverride))] },
     probeOps)

/-- createIgnitionAndPowerOnServer: resolve the node name, extract server
metadata, apply the ignition secret, then merge-patch the ServerClaim to
reference it and set Power to On. -/
def createIgnitionAndPowerOnServer (cfg : DriverConfig) (machineName : String)
    (reqSecret : Secret) (serverClaim : ServerClaim) (spec : ProviderSpec)
    (addressesMeta : List (String × MetaValue)) (store : Store) :
    Except Unit Unit × Store × List StoreOp :=
  let nRes := getNodeName cfg serverClaim store
  match nRes.1 with
  | none => (.error (), store, nRes.2)
  | some nn =>
    let eRes := extractServerMetadataFromClaim cfg serverClaim store
    match eRes.1 with
    | .error _ => (.error (), store, nRes.2 ++ eRes.2)
    | .ok serverMeta =>
      let gRes := generateIgnitionSecret cfg store machineName nn reqSecret spec
        addressesMeta serverMeta
      match gRes.1 with
      | .error _ => (.error (), store, nRes.2 ++ eRes.2 ++ gRes.2)
      | .ok ignSecret =>
        let store1 := applySecretStore store ignSecret
        let patched : ServerClaim :=
          { serverClaim with
            spec := { serverClaim.spec with
                      power := PowerOn
                      ignitionSecretRef := some ignSecret.name } }
        let store2 := patchServerClaimStore store1 patched
        (.ok (), store2,
         nRes.2 ++ eRes.2 ++ gRes.2 ++ [.applySecretOp ignSecret, .patchServerClaimOp patched])

/-- InitializeMachine (canonical revision): gates, decode, ServerClaim
fetch (unbound → Uninitialized as written in this revision), metadata
collection, ignition creation and power-on, node name. -/
def InitializeMachine (cfg : DriverConfig) (req : Option MachineRequest) (store : Store) :
    Except Code MachineResponse × Store × List StoreOp :=
  match req with
  | none => (.error .invalidArgument, store, [])
  | some r =>
    match r.machine, r.machineClass, r.secret with
    | some m, some mc, some sec =>
      if mc.provider != ProviderName then (.error .invalidArgument, store, [])
      else
        match GetProviderSpec (some mc) (some sec) with
        | none => (.error .internal, store, [])
        | some spec =>
          let gRes := getServerClaim cfg m.name store
          match gRes.1 with
          | .error unavailable =>
            if unavailable then (.error .uninitialized, store, gRes.2)
            else (.error .internal, store, gRes.2)
          | .ok sc =>
            let mRes := getIPAddressClaimsMetadata cfg m.name spec.ipamConfig store
            match mRes.1 with
            | .error unavailable =>
              if unavailable then (.error .uninitialized, store, gRes.2 ++ mRes.2)
              else (.error .internal, store, gRes.2 ++ mRes.2)
            | .ok addressesMeta =>
              match createIgnitionAndPowerOnServer cfg m.name sec sc spec addressesMeta store with
              | (.error _, store2, cLog) => (.error .internal, store2, gRes.2 ++ mRes.2 ++ cLog)
              | (.ok _, store2, cLog) =>
                let nRes := getNodeName cfg sc store2
                match nRes.1 with
                | none => (.error .internal, store2, gRes.2 ++ mRes.2 ++ cLog ++ nRes.2)
                | some nn =>
                  (.ok { providerID := getProviderIDForServerClaim sc, nodeName := nn },
                   store2, gRes.2 ++ mRes.2 ++ cLog ++ nRes.2)
    | _, _, _ => (.error .invalidArgument, store, [])

/-- List selector semantics of client.MatchingLabels: every selector entry
must be present with the same value. -/
def labelsMatch (selector : Labels) (l : Labels) : Bool :=
  selector.all (fun p => labelGet l p.1 = some p.2)

/-- ListMachines: gates, decode, then list ServerClaims of the target
namespace filtered by the provider-spec labels; the response maps
providerID to claim name. -/
def ListMachines (cfg : DriverConfig) (req : Option MachineRequest) (store : Store) :
    Except Code (List (String × String)) × Store × List StoreOp :=
  match req with
  | none => (.error .invalidArgument, store, [])
  | some r =>
    match r.machineClass, r.secret with
    | some mc, some sec =>
      if mc.provider != ProviderName then (.error .invalidArgument, store, [])
      else
        match GetProviderSpec (some mc) (some sec) with
        | none => (.error .internal, store, [])
        | some spec =>
          let items := store.serverClaims.filter
            (fun p => p.1.1 == cfg.metalNamespace && labelsMatch spec.labels p.2.labels)
          (.ok (items.map (fun p => (getProviderIDForServerClaim p.2, p.2.name))),
           store, [.listServerClaimsOp cfg.metalNamespace])
    | _, _ => (.error .invalidArgument, store, [])

/-- An error outcome of a single store call, as the Go code classifies it:
either a not-found error or any other error. -/
inductive StoreErr where
  | notFoundErr
  | otherErr
deriving DecidableEq, Repr

/-- Injected store-error outcomes for the two delete calls of
DeleteMachine; `none` means the call behaves per the pure store. -/
structure DeleteFaults where
  deleteSecretErr : Option StoreErr
  deleteServerClaimErr : Option StoreErr
deriving DecidableEq, Repr

/-- The fault-free store behaviour. -/
def noFaults : DeleteFaults := { deleteSecretErr := none, deleteServerClaimErr := none }

/-- DeleteMachine: gates, derived-ignition-secret delete (not-found is
ignored, other errors → Unknown), ServerClaim delete (not-found →
NotFound, other errors → Unknown), then the wait for the claim to be
gone (one poll of the pure store; a claim still present times out as
DeadlineExceeded). -/
def DeleteMachine (cfg : DriverConfig) (faults : DeleteFaults)
    (req : Option MachineRequest) (store : Store) :
    Except Code Unit × Store × List StoreOp :=
  match req with
  | none => (.error .invalidArgument, store, [])
  | some r =>
    match r.machine, r.machineClass, r.secret with
    | some m, some mc, some _ =>
      if mc.provider != ProviderName then (.error .invalidArgument, store, [])
      else
        let probeOps : List StoreOp :=
          [.getSecretOp (cfg.metalNamespace, ignitionSecretNameFor m.name)]
        let sk : NsKey := (cfg.metalNamespace, getIgnitionNameForMachine cfg store m.name)
        let secretErr : Option StoreErr :=
          match faults.deleteSecretErr with
          | some e => some e
          | none => if (mfind store.secrets sk).isSome then none else some .notFoundErr
        match secretErr with
        | some .otherErr => (.error .unknown, store, probeOps ++ [.deleteSecretOp sk])
        | _ =>
          let store1 :=
            if secretErr.isNone then { store with secrets := mdel store.secrets sk }
            else store
          let ck : NsKey := (cfg.metalNamespace, m.name)
          let claimErr : Option StoreErr :=
            match faults.deleteServerClaimErr with
            | some e => some e
            | none => if (mfind store1.serverClaims ck).isSome then none else some .notFoundErr
          match claimErr with
          | some .otherErr =>
            (.error .unknown, store1, probeOps ++ [.deleteSecretOp sk, .deleteServerClaimOp ck])
          | some .notFoundErr =>
            (.error .notFound, store1, probeOps ++ [.deleteSecretOp sk, .deleteServerClaimOp ck])
          | none =>
            let store2 := { store1 with serverClaims := mdel store1.serverClaims ck }
            if (mfind store2.serverClaims ck).isSome then
              (.error .deadlineExceeded, store2,
               probeOps ++ [.deleteSecretOp sk, .deleteServerClaimOp ck, .getServerClaimOp ck])
            else
              (.ok (), store2,
               probeOps ++ [.deleteSecretOp sk, .deleteServerClaimOp ck, .getServerClaimOp ck])
    | _, _, _ => (.error .invalidArgument, store, [])

/-! ### Concrete fixtures used by witnesses and counterexamples -/

/-- A minimal valid provider spec (image set, valid dns server, no IPAM). -/
def specBasic : ProviderSpec :=
  { image := "my-image", ignition := "", ignitionOverride := false, ignitionSecretKey := ""
    labels := [("shoot-name", "my-shoot")], dnsServers := [some "1.2.3.4"]
    serverLabels := [("instance-type", "bar")], metadata := [], ipamConfig := [] }

/-- The spec with a single IPAM entry (pool-a). -/
def specWithIpam : ProviderSpec :=
  { specBasic with ipamConfig :=
      [{ metadataKey := "pool-a",
         ipamRef := some { name := "pool-a", apiGroup := "ipam.cluster.x-k8s.io",
                           kind := "GlobalInClusterIPPool" } }] }

/-- A credential secret carrying non-empty userData. -/
def secretUserData : Secret :=
  { name := "provider-secret", ns := "ns", data := [("userData", some "abcd")] }

/-- A well-formed request for machine m0 with the given provider spec. -/
def reqOf (spec : ProviderSpec) : MachineRequest :=
  { machine := some { name := "m0" }
    machineClass := some { provider := ProviderName, providerSpec := some spec }
    secret := some secretUserData }

/-- Config with the default ServerClaimName policy, namespace ns. -/
def cfgSCN : DriverConfig := { metalNamespace := "ns", nodeNamePolicy := .serverClaimName }

/-- Config with the ServerName policy, namespace ns. -/
def cfgServerName : DriverConfig := { metalNamespace := "ns", nodeNamePolicy := .serverName }

/-- The empty store. -/
def emptyStore : Store :=
  { secrets := [], serverClaims := [], ipClaims := [], ipAddresses := [], servers := [] }

/-- ServerClaim of m0 with no ServerRef (not yet bound). -/
def claimUnbound : ServerClaim :=
  { name := "m0", ns := "ns", labels := [], annotations := []
    spec := { power := PowerOff, serverSelector := [], image := "my-image",
              serverRef := none, ignitionSecretRef := none } }

/-- ServerClaim of m0 bound to test-server and powered on. -/
def claimBoundOn : ServerClaim :=
  { claimUnbound with
    spec := { claimUnbound.spec with serverRef := some "test-server", power := PowerOn } }

/-- A store holding only the unbound ServerClaim of m0. -/
def storeUnboundClaim : Store :=
  { emptyStore with serverClaims := [(("ns", "m0"), claimUnbound)] }

/-- IPAddressClaim m0-pool-a with matching labels, bound, but without any
owner reference (fails the structural validation of GetMachineStatus). -/
def ipClaimNoOwner : IPAddressClaim :=
  { name := "m0-pool-a", ns := "ns"
    labels := some [(LabelKeyServerClaimName, "m0"), (LabelKeyServerClaimNamespace, "ns")]
    ownerReferences := []
    poolRefAPIGroup := some "ipam.cluster.x-k8s.io", poolRefKind := "GlobalInClusterIPPool"
    poolRefName := "pool-a", addressRefName := "ip-1" }

/-- Store for the status check: bound powered-on claim, ip claim without owner. -/
def storeOwnerlessIPClaim : Store :=
  { emptyStore with serverClaims := [(("ns", "m0"), claimBoundOn)]
                    ipClaims := [(("ns", "m0-pool-a"), ipClaimNoOwner)] }

/-- ServerClaim of m0 bound and still carrying the recreate annotation. -/
def claimBoundWithRecreateMarker : ServerClaim :=
  { claimUnbound with
    annotations := [(AnnotationKeyMCMMachineRecreate, "true")]
    spec := { claimUnbound.spec with serverRef := some "test-server" } }

/-- Store holding the bound claim that still carries the recreate annotation. -/
def storeRecreateMarked : Store :=
  { emptyStore with serverClaims := [(("ns", "m0"), claimBoundWithRecreateMarker)] }

/-- A credential secret whose userData is a present but zero-length
(non-nil) value. -/
def secretEmptyUserData : Secret :=
  { name := "provider-secret", ns := "ns", data := [("userData", some "")] }

deriving instance DecidableEq for Except

/-! ### Helper lemmas about the store model -/

theorem mfind_mput_self {α : Type} (m : List (NsKey × α)) (k : NsKey) (v : α) :
    mfind (mput m k v) k = some v := by
  simp [mfind, mput, List.find?]

theorem labelGet_labelPut_self (l : Labels) (k v : String) :
    labelGet (labelPut l k v) k = some v := by
  simp [labelGet, labelPut, List.find?]

theorem labelGet_labelDel_self (l : Labels) (k : String) :
    labelGet (labelDel l k) k = none := by
  induction l with
  | nil => rfl
  | cons p t ih =>
    by_cases h : p.1 = k
    · simp only [labelDel, List.filter, h] at ih ⊢
      simp only [bne_self_eq_false] at ih ⊢
      exact ih
    · have hb : (p.1 == k) = false := by simpa using h
      simp only [labelDel, List.filter, bne, hb] at ih ⊢
      simp only [labelGet, List.find?, hb] at ih ⊢
      exact ih

theorem applyIPClaim_serverClaims (store : Store) (c : IPAddressClaim) :
    (applyIPClaim store c).1.serverClaims = store.serverClaims := by
  unfold applyIPClaim
  cases mfind store.ipClaims (c.ns, c.name) <;> rfl

theorem createIPAddressClaims_serverClaims (cfg : DriverConfig) (mn : String)
    (sc : ServerClaim) (es : List IPAMConfig) (store : Store) :
    (createIPAddressClaims cfg mn sc es store).2.1.serverClaims = store.serverClaims := by
  induction es generalizing store with
  | nil => rfl
  | cons e rest ih =>
    unfold createIPAddressClaims
    cases e.ipamRef with
    | none => rfl
    | some ref =>
      simp only []
      rw [ih]
      exact applyIPClaim_serverClaims store _

theorem createIPAddressClaims_log_no_apply_sc (cfg : DriverConfig) (mn : String)
    (sc : ServerClaim) (es : List IPAMConfig) (store : Store) :
    ((createIPAddressClaims cfg mn sc es store).2.2).countP StoreOp.isApplyServerClaim = 0 := by
  induction es generalizing store with
  | nil => rfl
  | cons e rest ih =>
    unfold createIPAddressClaims
    cases e.ipamRef with
    | none => rfl
    | some ref =>
      simp only [List.countP_cons]
      rw [ih]
      rfl

theorem getNodeName_log_no_apply_sc (cfg : DriverConfig) (c : ServerClaim) (store : Store) :
    ((getNodeName cfg c store).2).countP StoreOp.isApplyServerClaim = 0 := by
  unfold getNodeName
  cases cfg.nodeNamePolicy with
  | serverClaimName => rfl
  | serverName => cases c.spec.serverRef <;> rfl
  | bmcName =>
    cases c.spec.serverRef with
    | none => rfl
    | some n =>
      cases h : sfind store.servers n with
      | none => simp [h, StoreOp.isApplyServerClaim]
      | some srv => cases hb : srv.bmcRef <;> simp [h, hb, StoreOp.isApplyServerClaim]

theorem createIPAddressClaims_ok (cfg : DriverConfig) (mn : String) (sc : ServerClaim)
    (es : List IPAMConfig) (store : Store) (h : ∀ e ∈ es, e.ipamRef.isSome) :
    (createIPAddressClaims cfg mn sc es store).1 = .ok () := by
  induction es generalizing store with
  | nil => rfl
  | cons e rest ih =>
    unfold createIPAddressClaims
    cases he : e.ipamRef with
    | none =>
      have := h e (by simp)
      rw [he] at this
      simp at this
    | some ref =>
      exact ih _ (fun x hx => h x (by simp [hx]))

theorem labelGet_nil (k : String) : labelGet [] k = none := rfl

theorem ServerIsBound_log (cfg : DriverConfig) (store : Store) (mn : String) :
    (ServerIsBound cfg store mn).2 = [StoreOp.getServerClaimOp (cfg.metalNamespace, mn)] := by
  simp only [ServerIsBound]
  cases h : mfind store.serverClaims (cfg.metalNamespace, mn) <;> simp [h]

theorem patchServerClaimWithRecreate_log (store : Store) (sc : ServerClaim) (b : Bool) :
    ((patchServerClaimWithRecreate store sc b).2.2).countP StoreOp.isApplyServerClaim = 0 := by
  unfold patchServerClaimWithRecreate
  cases b <;> rfl

theorem createMachineFinish_log (cfg : DriverConfig) (claim : ServerClaim)
    (store : Store) (log : List StoreOp) :
    (createMachineFinish cfg claim store log).2.2 = log ++ (getNodeName cfg claim store).2 := by
  simp only [createMachineFinish]
  cases h : (getNodeName cfg claim store).1 <;> rfl

theorem createMachineFinish_store (cfg : DriverConfig) (claim : ServerClaim)
    (store : Store) (log : List StoreOp) :
    (createMachineFinish cfg claim store log).2.1 = store := by
  simp only [createMachineFinish]
  cases h : (getNodeName cfg claim store).1 <;> rfl

theorem createMachineCore_log_cons (cfg : DriverConfig) (mn : String)
    (spec : ProviderSpec) (store : Store) :
    ∃ rest,
      (createMachineCore cfg mn spec store).2.2
        = StoreOp.applyServerClaimOp (newServerClaim cfg mn spec) :: rest
      ∧ rest.countP StoreOp.isApplyServerClaim = 0 := by
  simp only [createMachineCore]
  rcases hip : createIPAddressClaims cfg mn (createServerClaim cfg mn spec store).1
      spec.ipamConfig (createServerClaim cfg mn spec store).2.1 with ⟨res, st2, lg2⟩
  have hlg2 : lg2.countP StoreOp.isApplyServerClaim = 0 := by
    have h := createIPAddressClaims_log_no_apply_sc cfg mn
      (createServerClaim cfg mn spec store).1 spec.ipamConfig
      (createServerClaim cfg mn spec store).2.1
    rw [hip] at h
    exact h
  have hscv : (createServerClaim cfg mn spec store).2.2
      = [StoreOp.applyServerClaimOp (newServerClaim cfg mn spec)] := rfl
  have hnlog : ∀ (c : ServerClaim) (st : Store),
      ((getNodeName cfg c st).2).countP StoreOp.isApplyServerClaim = 0 :=
    fun c st => getNodeName_log_no_apply_sc cfg c st
  cases res with
  | error c => exact ⟨lg2, by rw [hscv]; rfl, hlg2⟩
  | ok u =>
    dsimp only
    by_cases hpol : (cfg.nodeNamePolicy != NodeNamePolicy.serverClaimName) = true
    · rw [if_pos hpol]
      rcases hsb : ServerIsBound cfg st2 mn with ⟨sbres, lg3⟩
      have hlg3 : lg3.countP StoreOp.isApplyServerClaim = 0 := by
        have h := ServerIsBound_log cfg st2 mn
        rw [hsb] at h
        have h2 : lg3 = [StoreOp.getServerClaimOp (cfg.metalNamespace, mn)] := h
        rw [h2]
        rfl
      cases sbres with
      | none =>
        dsimp only
        refine ⟨_, by rw [hscv]; rfl, ?_⟩
        simp [List.countP_append, hlg2, hlg3]
      | some p =>
        rcases p with ⟨sc, bound⟩
        cases bound with
        | true =>
          dsimp only
          rw [if_pos rfl, createMachineFinish_log, hscv]
          refine ⟨_, rfl, ?_⟩
          simp [List.countP_append, hlg2, hlg3, patchServerClaimWithRecreate_log, hnlog]
        | false =>
          dsimp only
          rw [if_neg (by simp), hscv]
          refine ⟨_, rfl, ?_⟩
          simp [List.countP_append, hlg2, hlg3, patchServerClaimWithRecreate_log]
    · rw [if_neg hpol, createMachineFinish_log, hscv]
      refine ⟨_, rfl, ?_⟩
      simp [List.countP_append, hlg2, hnlog]

theorem CreateMachine_gates_pass (cfg : DriverConfig) (m : Machine) (mc : MachineClass)
    (sec : Secret) (store : Store) (spec : ProviderSpec)
    (hprov : mc.provider = ProviderName)
    (hdec : GetProviderSpec (some mc) (some sec) = some spec) :
    CreateMachine cfg
      (some { machine := some m, machineClass := some mc, secret := some sec }) store
      = createMachineCore cfg m.name spec store := by
  simp [CreateMachine, hprov, hdec]

theorem patchServerClaimWithRecreate_false_store (store : Store) (sc : ServerClaim) :
    (patchServerClaimWithRecreate store sc false).2.1
      = patchServerClaimStore store
          { sc with annotations := labelDel sc.annotations AnnotationKeyMCMMachineRecreate } := rfl

theorem patchServerClaimWithRecreate_true_store (store : Store) (sc : ServerClaim) :
    (patchServerClaimWithRecreate store sc true).2.1
      = patchServerClaimStore store
          { sc with annotations := labelPut sc.annotations AnnotationKeyMCMMachineRecreate "true" } := rfl

theorem createMachineCore_recreate_marker (cfg : DriverConfig) (mn : String)
    (spec : ProviderSpec) (store : Store)
    (hipam : ∀ e ∈ spec.ipamConfig, e.ipamRef.isSome = true) :
    (cfg.nodeNamePolicy ≠ .serverClaimName →
      ∃ sc, mfind (createMachineCore cfg mn spec store).2.1.serverClaims
              (cfg.metalNamespace, mn) = some sc
        ∧ (labelGet sc.annotations AnnotationKeyMCMMachineRecreate = some "true" ↔
            (mfind store.serverClaims (cfg.metalNamespace, mn)).bind
              (fun c => c.spec.serverRef) = none))
    ∧ (cfg.nodeNamePolicy = .serverClaimName →
        ((mfind (createMachineCore cfg mn spec store).2.1.serverClaims
            (cfg.metalNamespace, mn)).bind
          (fun sc => labelGet sc.annotations AnnotationKeyMCMMachineRecreate))
        = ((mfind store.serverClaims (cfg.metalNamespace, mn)).bind
          (fun sc => labelGet sc.annotations AnnotationKeyMCMMachineRecreate))) := by
  simp only [createMachineCore]
  rcases hip : createIPAddressClaims cfg mn (createServerClaim cfg mn spec store).1
      spec.ipamConfig (createServerClaim cfg mn spec store).2.1 with ⟨res, st2, lg2⟩
  have hres : res = .ok () := by
    have h := createIPAddressClaims_ok cfg mn (createServerClaim cfg mn spec store).1
      spec.ipamConfig (createServerClaim cfg mn spec store).2.1 hipam
    rw [hip] at h
    exact h
  subst hres
  have hst2 : st2.serverClaims = (createServerClaim cfg mn spec store).2.1.serverClaims := by
    have h := createIPAddressClaims_serverClaims cfg mn (createServerClaim cfg mn spec store).1
      spec.ipamConfig (createServerClaim cfg mn spec store).2.1
    rw [hip] at h
    exact h
  have hm : (createServerClaim cfg mn spec store).1
      = serverClaimApplyMerge (mfind store.serverClaims (cfg.metalNamespace, mn))
          (newServerClaim cfg mn spec) := rfl
  have hstore1 : (createServerClaim cfg mn spec store).2.1.serverClaims
      = mput store.serverClaims (cfg.metalNamespace, mn)
          (createServerClaim cfg mn spec store).1 := rfl
  have hfind2 : mfind st2.serverClaims (cfg.metalNamespace, mn)
      = some (createServerClaim cfg mn spec store).1 := by
    rw [hst2, hstore1, mfind_mput_self]
  have hns : (createServerClaim cfg mn spec store).1.ns = cfg.metalNamespace := by
    rw [hm]
    cases mfind store.serverClaims (cfg.metalNamespace, mn) <;> rfl
  have hname : (createServerClaim cfg mn spec store).1.name = mn := by
    rw [hm]
    cases mfind store.serverClaims (cfg.metalNamespace, mn) <;> rfl
  have href : (createServerClaim cfg mn spec store).1.spec.serverRef
      = (mfind store.serverClaims (cfg.metalNamespace, mn)).bind (fun c => c.spec.serverRef) := by
    rw [hm]
    cases mfind store.serverClaims (cfg.metalNamespace, mn) <;> rfl
  have hann : (createServerClaim cfg mn spec store).1.annotations
      = ((mfind store.serverClaims (cfg.metalNamespace, mn)).map
          (fun c => c.annotations)).getD [] := by
    rw [hm]
    cases mfind store.serverClaims (cfg.metalNamespace, mn) <;> rfl
  constructor
  · intro hne
    have hpol : (cfg.nodeNamePolicy != NodeNamePolicy.serverClaimName) = true := by
      simpa using hne
    dsimp only
    rw [if_pos hpol]
    have hsb : ServerIsBound cfg st2 mn
        = (some ((createServerClaim cfg mn spec store).1,
                 (createServerClaim cfg mn spec store).1.spec.serverRef.isSome),
           [StoreOp.getServerClaimOp (cfg.metalNamespace, mn)]) := by
      simp only [ServerIsBound]
      rw [hfind2]
    rw [hsb]
    dsimp only
    cases hbound : (createServerClaim cfg mn spec store).1.spec.serverRef.isSome with
    | true =>
      rw [if_pos rfl, createMachineFinish_store, patchServerClaimWithRecreate_false_store]
      simp only [patchServerClaimStore]
      rw [hns, hname]
      refine ⟨_, mfind_mput_self _ _ _, ?_⟩
      obtain ⟨x, hx⟩ := Option.isSome_iff_exists.mp hbound
      rw [← href, hx]
      simp [labelGet_labelDel_self]
    | false =>
      rw [if_neg (by simp), patchServerClaimWithRecreate_true_store]
      simp only [patchServerClaimStore]
      rw [hns, hname]
      refine ⟨_, mfind_mput_self _ _ _, ?_⟩
      have hrefNone : (createServerClaim cfg mn spec store).1.spec.serverRef = none := by
        cases h : (createServerClaim cfg mn spec store).1.spec.serverRef with
        | none => rfl
        | some x => rw [h] at hbound; simp at hbound
      rw [← href, hrefNone]
      simp [labelGet_labelPut_self]
  · intro heq
    have hpol : (cfg.nodeNamePolicy != NodeNamePolicy.serverClaimName) = false := by
      simp [heq]
    dsimp only
    rw [if_neg (by simp [hpol]), createMachineFinish_store, hfind2]
    simp only [Option.some_bind]
    rw [hann]
    cases hold : mfind store.serverClaims (cfg.metalNamespace, mn) with
    | none => simp [labelGet_nil]
    | some o => simp

theorem gateCreateMachine (cfg : DriverConfig) (store : Store) (r : Option MachineRequest)
    (h : isEmptyCreateRequest r = true ∨ requestProvider r ≠ ProviderName) :
    CreateMachine cfg r store = (.error .invalidArgument, store, []) := by
  cases r with
  | none => rfl
  | some req =>
    rcases req with ⟨m?, mc?, sec?⟩
    cases m? with
    | none => cases mc? <;> cases sec? <;> rfl
    | some m =>
      cases mc? with
      | none => cases sec? <;> rfl
      | some mc =>
        cases sec? with
        | none => rfl
        | some sec =>
          rcases h with h | h
          · simp [isEmptyCreateRequest] at h
          · have hb : (mc.provider != ProviderName) = true := by
              simp only [requestProvider] at h
              simpa using h
            simp [CreateMachine, hb]

theorem gateInitializeMachine (cfg : DriverConfig) (store : Store) (r : Option MachineRequest)
    (h : isEmptyInitializeRequest r = true ∨ requestProvider r ≠ ProviderName) :
    InitializeMachine cfg r store = (.error .invalidArgument, store, []) := by
  cases r with
  | none => rfl
  | some req =>
    rcases req with ⟨m?, mc?, sec?⟩
    cases m? with
    | none => cases mc? <;> cases sec? <;> rfl
    | some m =>
      cases mc? with
      | none => cases sec? <;> rfl
      | some mc =>
        cases sec? with
        | none => rfl
        | some sec =>
          rcases h with h | h
          · simp [isEmptyInitializeRequest, isEmptyCreateRequest] at h
          · have hb : (mc.provider != ProviderName) = true := by
              simp only [requestProvider] at h
              simpa using h
            simp [InitializeMachine, hb]

theorem gateGetMachineStatus (cfg : DriverConfig) (store : Store) (r : Option MachineRequest)
    (h : isEmptyMachineStatusRequest r = true ∨ requestProvider r ≠ ProviderName) :
    GetMachineStatus cfg r store = (.error .invalidArgument, store, []) := by
  cases r with
  | none => rfl
  | some req =>
    rcases req with ⟨m?, mc?, sec?⟩
    cases m? with
    | none => cases mc? <;> cases sec? <;> rfl
    | some m =>
      cases mc? with
      | none => cases sec? <;> rfl
      | some mc =>
        cases sec? with
        | none => rfl
        | some sec =>
          rcases h with h | h
          · simp [isEmptyMachineStatusRequest, isEmptyCreateRequest] at h
          · have hb : (mc.provider != ProviderName) = true := by
              simp only [requestProvider] at h
              simpa using h
            simp [GetMachineStatus, hb]

theorem gateListMachines (cfg : DriverConfig) (store : Store) (r : Option MachineRequest)
    (h : isEmptyListMachinesRequest r = true ∨ requestProvider r ≠ ProviderName) :
    ListMachines cfg r store = (.error .invalidArgument, store, []) := by
  cases r with
  | none => rfl
  | some req =>
    rcases req with ⟨m?, mc?, sec?⟩
    cases mc? with
    | none => cases sec? <;> rfl
    | some mc =>
      cases sec? with
      | none => rfl
      | some sec =>
        rcases h with h | h
        · simp [isEmptyListMachinesRequest] at h
        · have hb : (mc.provider != ProviderName) = true := by
            simp only [requestProvider] at h
            simpa using h
          simp [ListMachines, hb]

theorem gateDeleteMachine (cfg : DriverConfig) (faults : DeleteFaults) (store : Store)
    (r : Option MachineRequest)
    (h : isEmptyDeleteRequest r = true ∨ requestProvider r ≠ ProviderName) :
    DeleteMachine cfg faults r store = (.error .invalidArgument, store, []) := by
  cases r with
  | none => rfl
  | some req =>
    rcases req with ⟨m?, mc?, sec?⟩
    cases m? with
    | none => cases mc? <;> cases sec? <;> rfl
    | some m =>
      cases mc? with
      | none => cases sec? <;> rfl
      | some mc =>
        cases sec? with
        | none => rfl
        | some sec =>
          rcases h with h | h
          · simp [isEmptyDeleteRequest, isEmptyCreateRequest] at h
          · have hb : (mc.provider != ProviderName) = true := by
              simp only [requestProvider] at h
              simpa using h
            simp [DeleteMachine, hb]

/-! ### Claim theorems -/

/-- C1: InitializeMachine on a request passing the gates whose ServerClaim
exists but has a nil ServerRef. The claim (and the repository's own
initialize test) expects code Unavailable; the code as written returns
code Uninitialized. This theorem evaluates the embedded code at the
failing input. -/
theorem C1_initialize_unbound_returns_uninitialized :
    (InitializeMachine cfgSCN (some (reqOf specBasic)) storeUnboundClaim).1
      = .error .uninitialized
    ∧ (InitializeMachine cfgSCN (some (reqOf specBasic)) storeUnboundClaim).1
      ≠ .error .unavailable := by
  exact ⟨rfl, by decide⟩

/-- C2: GetMachineStatus whose ServerClaim exists without the recreate
annotation and whose IPAddressClaim fails structural validation (no owner
reference). The claim (and the repository's own status test) expects code
Uninitialized; the code as written returns code NotFound ("will
recreate"). This theorem evaluates the embedded code at the failing
input. -/
theorem C2_status_invalid_ipclaim_returns_notFound :
    (GetMachineStatus cfgSCN (some (reqOf specWithIpam)) storeOwnerlessIPClaim).1
      = .error .notFound
    ∧ (GetMachineStatus cfgSCN (some (reqOf specWithIpam)) storeOwnerlessIPClaim).1
      ≠ .error .uninitialized := by
  exact ⟨rfl, by decide⟩

/-- C3: every GetMachineStatus request passing the gates whose ServerClaim
exists and carries the annotation metal.ironcore.dev/mcm-machine-recreate
with value "true" is answered with code NotFound. -/
theorem C3_recreate_marker_status_notFound
    (cfg : DriverConfig) (m : Machine) (mc : MachineClass) (sec : Secret)
    (store : Store) (sc : ServerClaim) (spec : ProviderSpec)
    (hprov : mc.provider = ProviderName)
    (hdec : GetProviderSpec (some mc) (some sec) = some spec)
    (hclaim : mfind store.serverClaims (cfg.metalNamespace, m.name) = some sc)
    (hmark : labelGet sc.annotations AnnotationKeyMCMMachineRecreate = some "true") :
    (GetMachineStatus cfg
      (some { machine := some m, machineClass := some mc, secret := some sec }) store).1
      = .error .notFound := by
  simp [GetMachineStatus, hprov, hdec, hclaim, hmark]

/-- Witness for C3 at a concrete input. -/
theorem C3_recreate_marker_status_notFound_witness :
    (GetMachineStatus cfgSCN (some (reqOf specBasic)) storeRecreateMarked).1
      = .error .notFound :=
  C3_recreate_marker_status_notFound cfgSCN { name := "m0" }
    { provider := ProviderName, providerSpec := some specBasic } secretUserData
    storeRecreateMarked claimBoundWithRecreateMarker specBasic rfl rfl rfl rfl

/-- C7: the derived ignition secret name is `M-ignition` exactly when a
secret of that name exists in the target namespace, and `M` otherwise. -/
theorem C7_ignition_secret_name (cfg : DriverConfig) (store : Store) (m : String) :
    (getIgnitionNameForMachine cfg store m = m ++ "-ignition" ↔
      (mfind store.secrets (cfg.metalNamespace, m ++ "-ignition")).isSome = true)
    ∧ ((mfind store.secrets (cfg.metalNamespace, m ++ "-ignition")).isSome = false →
        getIgnitionNameForMachine cfg store m = m) := by
  have hlen : ("-ignition" : String).length = 9 := rfl
  have hne : m ≠ m ++ "-ignition" := by
    intro h
    have hc := congrArg String.length h
    rw [String.length_append] at hc
    omega
  unfold getIgnitionNameForMachine ignitionSecretNameFor
  cases h : mfind store.secrets (cfg.metalNamespace, m ++ "-ignition") with
  | none => simp [h, hne]
  | some s => simp [h]

/-- Witness for C7 at a concrete input. -/
theorem C7_ignition_secret_name_witness :
    (getIgnitionNameForMachine cfgSCN emptyStore "m0" = "m0" ++ "-ignition" ↔
      (mfind emptyStore.secrets (cfgSCN.metalNamespace, "m0" ++ "-ignition")).isSome = true)
    ∧ ((mfind emptyStore.secrets (cfgSCN.metalNamespace, "m0" ++ "-ignition")).isSome = false →
        getIgnitionNameForMachine cfgSCN emptyStore "m0" = "m0") :=
  C7_ignition_secret_name cfgSCN emptyStore "m0"

/-- C8 counterexample: a credential secret whose userData is present but
zero-length (a non-nil empty byte slice) is accepted by the validator —
both validateSecret and the full ValidateProviderSpecAndSecret return no
errors — refuting the claim that every empty userData value is rejected. -/
theorem C8_counterexample :
    validateSecret (some secretEmptyUserData) = []
    ∧ ValidateProviderSpecAndSecret specBasic (some secretEmptyUserData) = []
    ∧ goDataIndex secretEmptyUserData.data "userData" = some "" :=
  ⟨rfl, rfl, rfl⟩

/-- C8 amended: the validator rejects a credential secret exactly when its
data lacks the userData key or maps it to a nil value (Go `== nil`); a
present zero-length non-nil value is accepted. A missing secret is also
rejected. -/
theorem C8_amended_userData_nil (s : Secret) :
    (validateSecret (some s) = [] ↔ (goDataIndex s.data "userData").isSome = true)
    ∧ validateSecret none ≠ [] := by
  constructor
  · unfold validateSecret
    cases h : goDataIndex s.data "userData" <;> simp [h]
  · intro h
    simp [validateSecret] at h

/-- Witness for C8's amended theorem at a concrete input. -/
theorem C8_amended_userData_nil_witness :
    (validateSecret (some secretUserData) = [] ↔
      (goDataIndex secretUserData.data "userData").isSome = true)
    ∧ validateSecret none ≠ [] :=
  C8_amended_userData_nil secretUserData

/-- C4 counterexample: a concrete CreateMachine invocation reaching the
coordination phase (one IPAM entry, empty store) performs the ServerClaim
apply at log position 0 and the IPAddressClaim upsert at position 1: the
ServerClaim apply precedes the IP-claim upsert, refuting the claimed
ordering. -/
theorem C4_counterexample :
    ((CreateMachine cfgSCN (some (reqOf specWithIpam)) emptyStore).2.2.findIdx
        StoreOp.isApplyServerClaim = 0)
    ∧ ((CreateMachine cfgSCN (some (reqOf specWithIpam)) emptyStore).2.2.findIdx
        StoreOp.isApplyIPClaim = 1)
    ∧ ((CreateMachine cfgSCN (some (reqOf specWithIpam)) emptyStore).2.2.any
        StoreOp.isApplyIPClaim = true) :=
  ⟨rfl, rfl, rfl⟩

/-- C4 amended: within every CreateMachine invocation that reaches the
coordination phase, the store write applying the ServerClaim is the first
store operation and the only ServerClaim apply, so every IPAddressClaim
upsert of the invocation comes after it (the order is reversed relative
to the claim). -/
theorem C4_amended_serverclaim_apply_first
    (cfg : DriverConfig) (m : Machine) (mc : MachineClass) (sec : Secret)
    (store : Store) (spec : ProviderSpec)
    (hprov : mc.provider = ProviderName)
    (hdec : GetProviderSpec (some mc) (some sec) = some spec) :
    ∃ rest,
      (CreateMachine cfg
        (some { machine := some m, machineClass := some mc, secret := some sec }) store).2.2
        = StoreOp.applyServerClaimOp (newServerClaim cfg m.name spec) :: rest
      ∧ rest.countP StoreOp.isApplyServerClaim = 0 := by
  rw [CreateMachine_gates_pass cfg m mc sec store spec hprov hdec]
  exact createMachineCore_log_cons cfg m.name spec store

/-- Witness for C4's amended theorem at a concrete input. -/
theorem C4_amended_serverclaim_apply_first_witness :
    ∃ rest,
      (CreateMachine cfgSCN (some (reqOf specWithIpam)) emptyStore).2.2
        = StoreOp.applyServerClaimOp (newServerClaim cfgSCN "m0" specWithIpam) :: rest
      ∧ rest.countP StoreOp.isApplyServerClaim = 0 :=
  C4_amended_serverclaim_apply_first cfgSCN { name := "m0" }
    { provider := ProviderName, providerSpec := some specWithIpam } secretUserData
    emptyStore specWithIpam rfl rfl

/-- C6: for every valid CreateMachine request, the ServerClaim applied to
the store (the first logged store write) has the machine name in the
target namespace, Power PowerOff, the provider-spec labels, selector
MatchLabels equal to serverLabels, and the provider-spec image. -/
theorem C6_applied_serverclaim_fields
    (cfg : DriverConfig) (m : Machine) (mc : MachineClass) (sec : Secret)
    (store : Store) (spec : ProviderSpec)
    (hprov : mc.provider = ProviderName)
    (hdec : GetProviderSpec (some mc) (some sec) = some spec) :
    (CreateMachine cfg
      (some { machine := some m, machineClass := some mc, secret := some sec }) store).2.2.head?
      = some (StoreOp.applyServerClaimOp
          { name := m.name
            ns := cfg.metalNamespace
            labels := spec.labels
            annotations := []
            spec := { power := PowerOff
                      serverSelector := spec.serverLabels
                      image := spec.image
                      serverRef := none
                      ignitionSecretRef := none } }) := by
  rw [CreateMachine_gates_pass cfg m mc sec store spec hprov hdec]
  obtain ⟨rest, hcons, _⟩ := createMachineCore_log_cons cfg m.name spec store
  rw [hcons]
  rfl

/-- Witness for C6 at a concrete input. -/
theorem C6_applied_serverclaim_fields_witness :
    (CreateMachine cfgSCN (some (reqOf specBasic)) emptyStore).2.2.head?
      = some (StoreOp.applyServerClaimOp
          { name := "m0"
            ns := cfgSCN.metalNamespace
            labels := specBasic.labels
            annotations := []
            spec := { power := PowerOff
                      serverSelector := specBasic.serverLabels
                      image := specBasic.image
                      serverRef := none
                      ignitionSecretRef := none } }) :=
  C6_applied_serverclaim_fields cfgSCN { name := "m0" }
    { provider := ProviderName, providerSpec := some specBasic } secretUserData
    emptyStore specBasic rfl rfl

/-- C5 counterexample: under the ServerClaimName policy, a CreateMachine
invocation that finds a pre-existing recreate annotation completes
successfully and leaves the annotation in place (the apply preserves
annotations owned by other patches, and under this policy the driver
never touches the annotation), so the annotation is present while the
claimed condition (non-default policy and an unbound observation) is
false. -/
theorem C5_counterexample :
    cfgSCN.nodeNamePolicy = NodeNamePolicy.serverClaimName
    ∧ (CreateMachine cfgSCN (some (reqOf specBasic)) storeRecreateMarked).1
        = .ok { providerID := "ironcore-metal://ns/m0", nodeName := "m0" }
    ∧ ((mfind (CreateMachine cfgSCN (some (reqOf specBasic)) storeRecreateMarked).2.1.serverClaims
          ("ns", "m0")).map
        (fun sc => labelGet sc.annotations AnnotationKeyMCMMachineRecreate))
      = some (some "true") :=
  ⟨rfl, rfl, rfl⟩

/-- C5 amended: for invocations reaching the coordination phase with all
IPAM references set — under a policy other than ServerClaimName, after
CreateMachine the ServerClaim carries the recreate annotation exactly
when it was observed without a ServerRef during the invocation (the
annotation is removed on observing a binding); under the ServerClaimName
policy CreateMachine neither sets nor clears the annotation, so the
pre-existing annotation state persists. -/
theorem C5_amended_recreate_marker
    (cfg : DriverConfig) (m : Machine) (mc : MachineClass) (sec : Secret)
    (store : Store) (spec : ProviderSpec)
    (hprov : mc.provider = ProviderName)
    (hdec : GetProviderSpec (some mc) (some sec) = some spec)
    (hipam : ∀ e ∈ spec.ipamConfig, e.ipamRef.isSome = true) :
    (cfg.nodeNamePolicy ≠ .serverClaimName →
      ∃ sc, mfind (CreateMachine cfg
              (some { machine := some m, machineClass := some mc, secret := some sec })
              store).2.1.serverClaims (cfg.metalNamespace, m.name) = some sc
        ∧ (labelGet sc.annotations AnnotationKeyMCMMachineRecreate = some "true" ↔
            (mfind store.serverClaims (cfg.metalNamespace, m.name)).bind
              (fun c => c.spec.serverRef) = none))
    ∧ (cfg.nodeNamePolicy = .serverClaimName →
        ((mfind (CreateMachine cfg
            (some { machine := some m, machineClass := some mc, secret := some sec })
            store).2.1.serverClaims (cfg.metalNamespace, m.name)).bind
          (fun sc => labelGet sc.annotations AnnotationKeyMCMMachineRecreate))
        = ((mfind store.serverClaims (cfg.metalNamespace, m.name)).bind
          (fun sc => labelGet sc.annotations AnnotationKeyMCMMachineRecreate))) := by
  rw [CreateMachine_gates_pass cfg m mc sec store spec hprov hdec]
  exact createMachineCore_recreate_marker cfg m.name spec store hipam

/-- Witness for C5's amended theorem at a concrete input (ServerName
policy, empty store: the claim is created unbound, so the annotation is
set and the pre-state had no ServerRef). -/
theorem C5_amended_recreate_marker_witness :
    (cfgServerName.nodeNamePolicy ≠ .serverClaimName →
      ∃ sc, mfind (CreateMachine cfgServerName (some (reqOf specBasic))
              emptyStore).2.1.serverClaims (cfgServerName.metalNamespace, "m0") = some sc
        ∧ (labelGet sc.annotations AnnotationKeyMCMMachineRecreate = some "true" ↔
            (mfind emptyStore.serverClaims (cfgServerName.metalNamespace, "m0")).bind
              (fun c => c.spec.serverRef) = none))
    ∧ (cfgServerName.nodeNamePolicy = .serverClaimName →
        ((mfind (CreateMachine cfgServerName (some (reqOf specBasic))
            emptyStore).2.1.serverClaims (cfgServerName.metalNamespace, "m0")).bind
          (fun sc => labelGet sc.annotations AnnotationKeyMCMMachineRecreate))
        = ((mfind emptyStore.serverClaims (cfgServerName.metalNamespace, "m0")).bind
          (fun sc => labelGet sc.annotations AnnotationKeyMCMMachineRecreate))) :=
  C5_amended_recreate_marker cfgServerName { name := "m0" }
    { provider := ProviderName, providerSpec := some specBasic } secretUserData
    emptyStore specBasic rfl rfl (fun e he => by simp [specBasic] at he)

/-- C9 counterexample: when deleting the ServerClaim fails with a store
error other than not-found, the call returns code Unknown, not Internal
as claimed. -/
theorem C9_counterexample :
    (DeleteMachine cfgSCN { deleteSecretErr := none, deleteServerClaimErr := some .otherErr }
      (some (reqOf specBasic)) storeUnboundClaim).1 = .error .unknown
    ∧ (DeleteMachine cfgSCN { deleteSecretErr := none, deleteServerClaimErr := some .otherErr }
      (some (reqOf specBasic)) storeUnboundClaim).1 ≠ .error .internal :=
  ⟨rfl, by decide⟩

/-- C9 amended: for every DeleteMachine request passing the input gates
(whose ignition-secret delete does not fail with a non-not-found error),
a ServerClaim delete failing with a store error other than not-found is
surfaced with code Unknown, and an absent ServerClaim yields code
NotFound. -/
theorem C9_amended_delete_codes
    (cfg : DriverConfig) (faults : DeleteFaults) (m : Machine) (mc : MachineClass)
    (sec : Secret) (store : Store)
    (hprov : mc.provider = ProviderName)
    (hsec : faults.deleteSecretErr = none) :
    (faults.deleteServerClaimErr = some .otherErr →
      (DeleteMachine cfg faults
        (some { machine := some m, machineClass := some mc, secret := some sec }) store).1
        = .error .unknown)
    ∧ (faults.deleteServerClaimErr = none →
        mfind store.serverClaims (cfg.metalNamespace, m.name) = none →
        (DeleteMachine cfg faults
          (some { machine := some m, machineClass := some mc, secret := some sec }) store).1
          = .error .notFound) := by
  constructor
  · intro hcf
    simp only [DeleteMachine, hprov]
    by_cases hs : (mfind store.secrets (cfg.metalNamespace,
        getIgnitionNameForMachine cfg store m.name)).isSome
    · simp [hsec, hs, hcf]
    · simp [hsec, hs, hcf]
  · intro hcf hclaim
    simp only [DeleteMachine, hprov]
    by_cases hs : (mfind store.secrets (cfg.metalNamespace,
        getIgnitionNameForMachine cfg store m.name)).isSome
    · simp [hsec, hs, hcf, hclaim]
    · simp [hsec, hs, hcf, hclaim]

/-- Witness for C9's amended theorem at a concrete input (no faults,
empty store: the ServerClaim is absent, so the call returns NotFound). -/
theorem C9_amended_delete_codes_witness :
    (noFaults.deleteServerClaimErr = some .otherErr →
      (DeleteMachine cfgSCN noFaults (some (reqOf specBasic)) emptyStore).1
        = .error .unknown)
    ∧ (noFaults.deleteServerClaimErr = none →
        mfind emptyStore.serverClaims (cfgSCN.metalNamespace, "m0") = none →
        (DeleteMachine cfgSCN noFaults (some (reqOf specBasic)) emptyStore).1
          = .error .notFound) :=
  C9_amended_delete_codes cfgSCN noFaults { name := "m0" }
    { provider := ProviderName, providerSpec := some specBasic } secretUserData
    emptyStore rfl rfl

/-- C10: a request failing an operation's emptiness gate, or naming a
provider other than ironcore-metal, is answered with InvalidArgument by
each of the five lifecycle operations, with the store unchanged and no
store operation performed. -/
theorem C10_gate_failures_reject_without_store_access
    (cfg : DriverConfig) (store : Store) (faults : DeleteFaults)
    (r1 r2 r3 r4 r5 : Option MachineRequest)
    (h1 : isEmptyCreateRequest r1 = true ∨ requestProvider r1 ≠ ProviderName)
    (h2 : isEmptyInitializeRequest r2 = true ∨ requestProvider r2 ≠ ProviderName)
    (h3 : isEmptyMachineStatusRequest r3 = true ∨ requestProvider r3 ≠ ProviderName)
    (h4 : isEmptyListMachinesRequest r4 = true ∨ requestProvider r4 ≠ ProviderName)
    (h5 : isEmptyDeleteRequest r5 = true ∨ requestProvider r5 ≠ ProviderName) :
    CreateMachine cfg r1 store = (.error .invalidArgument, store, [])
    ∧ InitializeMachine cfg r2 store = (.error .invalidArgument, store, [])
    ∧ GetMachineStatus cfg r3 store = (.error .invalidArgument, store, [])
    ∧ ListMachines cfg r4 store = (.error .invalidArgument, store, [])
    ∧ DeleteMachine cfg faults r5 store = (.error .invalidArgument, store, []) :=
  ⟨gateCreateMachine cfg store r1 h1,
   gateInitializeMachine cfg store r2 h2,
   gateGetMachineStatus cfg store r3 h3,
   gateListMachines cfg store r4 h4,
   gateDeleteMachine cfg faults store r5 h5⟩

/-- Witness for C10 at a concrete input (the nil request). -/
theorem C10_gate_failures_reject_without_store_access_witness :
    CreateMachine cfgSCN none emptyStore = (.error .invalidArgument, emptyStore, [])
    ∧ InitializeMachine cfgSCN none emptyStore = (.error .invalidArgument, emptyStore, [])
    ∧ GetMachineStatus cfgSCN none emptyStore = (.error .invalidArgument, emptyStore, [])
    ∧ ListMachines cfgSCN none emptyStore = (.error .invalidArgument, emptyStore, [])
    ∧ DeleteMachine cfgSCN noFaults none emptyStore = (.error .invalidArgument, emptyStore, []) :=
  C10_gate_failures_reject_without_store_access cfgSCN emptyStore noFaults
    none none none none none
    (Or.inl rfl) (Or.inl rfl) (Or.inl rfl) (Or.inl rfl) (Or.inl rfl)
